import Mathlib

/-!
Verification of the technical-analysis engine core
(`src/technical_analysis_engine` and the duplicated
`techincal-analysis-engine` copy, plus the FastAPI layer in `src/app`).

Pandas float series are modelled as `List (Option ℚ)` where `none` models
NaN (IEEE comparisons against NaN are false, which `fgt`/`flt`/`fge`/`fle`
reproduce).  Python dicts keyed by strings are modelled as association
lists with insert-or-overwrite-in-place semantics (`dictInsert`).
Exceptions are modelled with `Option`/`Except`.
-/

namespace TA

/-- Indicator kinds, from `ta_types.IndicatorType`. -/
inductive IndicatorType where
  | EMA
  | SMA
  | RSI
  | MACD
deriving DecidableEq, Repr

/-- Signal kinds, from `ta_types.SignalType`. -/
inductive SignalType where
  | ENTRY
  | EXIT
deriving DecidableEq, Repr

/-- Crossover directions, from `ta_types.CrossoverDirection`. -/
inductive CrossoverDirection where
  | ABOVE
  | BELOW
deriving DecidableEq, Repr

/-- Threshold conditions, from `ta_types.ThresholdCondition`. -/
inductive ThresholdCondition where
  | ABOVE
  | BELOW
deriving DecidableEq, Repr

/-- One cell of a pandas float Series: `none` models NaN. -/
abbrev Cell := Option ℚ

/-- A pandas float Series (values only; the index is positional). -/
abbrev Series := List Cell

/-- Pandas `>` on float cells: any comparison involving NaN is false. -/
def fgt : Cell → Cell → Bool
  | some a, some b => decide (a > b)
  | _, _ => false

/-- Pandas `<` on float cells: any comparison involving NaN is false. -/
def flt : Cell → Cell → Bool
  | some a, some b => decide (a < b)
  | _, _ => false

/-- Pandas `>=` on float cells: any comparison involving NaN is false. -/
def fge : Cell → Cell → Bool
  | some a, some b => decide (a ≥ b)
  | _, _ => false

/-- Pandas `<=` on float cells: any comparison involving NaN is false. -/
def fle : Cell → Cell → Bool
  | some a, some b => decide (a ≤ b)
  | _, _ => false

/-- Positional access into a series; out-of-range reads give NaN. -/
def getCell (s : Series) (t : Nat) : Cell := s.getD t none

/-- Pandas `Series.shift(1)` read at position `t`: position 0 becomes NaN,
position `t > 0` reads the value at `t - 1`. -/
def shiftCell (s : Series) (t : Nat) : Cell :=
  if t = 0 then none else s.getD (t - 1) none

/-- `SignalGenerator.crossover_signal` (signals.py lines 16-26):
ABOVE gives `(fast > slow) & (fast.shift(1) <= slow.shift(1))`,
BELOW gives `(fast < slow) & (fast.shift(1) >= slow.shift(1))`.
The output is boolean and positionally aligned with `fast`. -/
def crossover_signal (fast slow : Series) (direction : CrossoverDirection) :
    List Bool :=
  (List.range fast.length).map (fun t =>
    match direction with
    | .ABOVE => fgt (getCell fast t) (getCell slow t) &&
                fle (shiftCell fast t) (shiftCell slow t)
    | .BELOW => flt (getCell fast t) (getCell slow t) &&
                fge (shiftCell fast t) (shiftCell slow t))

/-- `SignalGenerator.threshold_signal` (signals.py lines 28-38):
ABOVE gives `values > threshold`, BELOW gives `values < threshold`. -/
def threshold_signal (values : Series) (threshold : ℚ)
    (condition : ThresholdCondition) : List Bool :=
  values.map (fun v =>
    match condition with
    | .ABOVE => fgt v (some threshold)
    | .BELOW => flt v (some threshold))

lemma fgt_none_left (b : Cell) : fgt none b = false := rfl

lemma fgt_none_right (a : Cell) : fgt a none = false := by
  cases a <;> rfl

lemma flt_none_left (b : Cell) : flt none b = false := rfl

lemma flt_none_right (a : Cell) : flt a none = false := by
  cases a <;> rfl

lemma fge_none_right (a : Cell) : fge a none = false := by
  cases a <;> rfl

lemma fle_none_right (a : Cell) : fle a none = false := by
  cases a <;> rfl

lemma fge_none_left (b : Cell) : fge none b = false := rfl

lemma fle_none_left (b : Cell) : fle none b = false := rfl

/-- Evaluating a `(List.range n).map f` list with an out-of-range default. -/
lemma getD_range_map {β : Type} (f : Nat → β) (n t : Nat) (d : β) :
    ((List.range n).map f).getD t d = if t < n then f t else d := by
  rcases Nat.lt_or_ge t n with h | h
  · rw [if_pos h]
    rw [List.getD_eq_getElem?_getD, List.getElem?_map, List.getElem?_range h]
    rfl
  · rw [if_neg (Nat.not_lt.mpr h)]
    rw [List.getD_eq_getElem?_getD, List.getElem?_map]
    rw [List.getElem?_eq_none (by simpa using h)]
    rfl

/-- Evaluating a mapped list with an out-of-range default. -/
lemma getD_map {β γ : Type} (f : β → γ) (l : List β) (t : Nat) (d : γ) :
    (l.map f).getD t d = match l[t]? with
      | some v => f v
      | none => d := by
  rw [List.getD_eq_getElem?_getD, List.getElem?_map]
  cases l[t]? <;> rfl

lemma crossover_signal_getD (fast slow : Series)
    (direction : CrossoverDirection) (t : Nat) :
    (crossover_signal fast slow direction).getD t false =
      if t < fast.length then
        (match direction with
         | .ABOVE => fgt (getCell fast t) (getCell slow t) &&
                     fle (shiftCell fast t) (shiftCell slow t)
         | .BELOW => flt (getCell fast t) (getCell slow t) &&
                     fge (shiftCell fast t) (shiftCell slow t))
      else false := by
  unfold crossover_signal
  rw [getD_range_map]
  cases direction <;> rfl

lemma crossover_signal_length (fast slow : Series)
    (direction : CrossoverDirection) :
    (crossover_signal fast slow direction).length = fast.length := by
  unfold crossover_signal
  rw [List.length_map, List.length_range]

lemma threshold_signal_length (values : Series) (threshold : ℚ)
    (condition : ThresholdCondition) :
    (threshold_signal values threshold condition).length = values.length := by
  unfold threshold_signal
  rw [List.length_map]

lemma getCell_eq_some_lt {s : Series} {t : Nat} {v : ℚ}
    (h : getCell s t = some v) : t < s.length := by
  by_contra hn
  unfold getCell at h
  rw [List.getD_eq_getElem?_getD, List.getElem?_eq_none] at h
  · exact Option.noConfusion h
  · exact Nat.not_lt.mp hn

lemma getCell_eq_getElem? (s : Series) (t : Nat) :
    getCell s t = s[t]?.getD none := by
  unfold getCell
  rw [List.getD_eq_getElem?_getD]

/-- Claim C2: for every pair of indicator value series, a crossover rule with
direction ABOVE is true at a timestamp `t` that has a predecessor exactly when
`fast[t] > slow[t]` and `fast[t-1] <= slow[t-1]`, and with direction BELOW
exactly when `fast[t] < slow[t]` and `fast[t-1] >= slow[t-1]`; at the very
first timestamp the crossover output is always false. -/
theorem claim_C2_crossover_edge_semantics (fast slow : Series) (t : Nat)
    (a b a1 b1 : ℚ) (ht : 0 < t) (htl : t < fast.length)
    (hfa : getCell fast t = some a) (hsb : getCell slow t = some b)
    (hfa1 : getCell fast (t - 1) = some a1)
    (hsb1 : getCell slow (t - 1) = some b1) :
    (((crossover_signal fast slow .ABOVE).getD t false = true) ↔
        (a > b ∧ a1 ≤ b1)) ∧
    (((crossover_signal fast slow .BELOW).getD t false = true) ↔
        (a < b ∧ a1 ≥ b1)) ∧
    (∀ direction : CrossoverDirection,
      (crossover_signal fast slow direction).getD 0 false = false) := by
  have hshift : ∀ s : Series, shiftCell s t = getCell s (t - 1) := by
    intro s
    unfold shiftCell getCell
    rw [if_neg (Nat.pos_iff_ne_zero.mp ht)]
  refine ⟨?_, ?_, ?_⟩
  · rw [crossover_signal_getD, if_pos htl, hshift, hshift, hfa, hsb, hfa1, hsb1]
    simp [fgt, fle]
  · rw [crossover_signal_getD, if_pos htl, hshift, hshift, hfa, hsb, hfa1, hsb1]
    simp [flt, fge]
  · intro direction
    rw [crossover_signal_getD]
    rcases Nat.lt_or_ge 0 fast.length with h | h
    · rw [if_pos h]
      cases direction <;>
        simp [shiftCell, fle_none_left, fge_none_left, Bool.and_eq_false_iff]
    · rw [if_neg (Nat.not_lt.mpr h)]

/-- Witness for claim C2 at concrete input: fast = [1, 3], slow = [2, 2],
t = 1, an upward cross (3 > 2 and 1 ≤ 2). -/
theorem claim_C2_crossover_edge_semantics_witness :
    (((crossover_signal [some 1, some 3] [some 2, some 2] .ABOVE).getD 1 false
        = true) ↔ ((3 : ℚ) > 2 ∧ (1 : ℚ) ≤ 2)) ∧
    (((crossover_signal [some 1, some 3] [some 2, some 2] .BELOW).getD 1 false
        = true) ↔ ((3 : ℚ) < 2 ∧ (1 : ℚ) ≥ 2)) ∧
    (∀ direction : CrossoverDirection,
      (crossover_signal [some 1, some 3] [some 2, some 2] direction).getD
        0 false = false) :=
  claim_C2_crossover_edge_semantics [some 1, some 3] [some 2, some 2] 1
    3 2 1 2 (by decide) (by decide) rfl rfl rfl rfl

/-- Claim C3: a threshold rule with condition ABOVE is true at `t` exactly
when `value[t] > threshold`, and with condition BELOW exactly when
`value[t] < threshold` — a level test true at every timestamp where the
comparison holds, not only at the crossing instant. -/
theorem claim_C3_threshold_level_semantics (values : Series) (threshold : ℚ)
    (t : Nat) (v : ℚ) (hv : getCell values t = some v) :
    (((threshold_signal values threshold .ABOVE).getD t false = true) ↔
        v > threshold) ∧
    (((threshold_signal values threshold .BELOW).getD t false = true) ↔
        v < threshold) := by
  have hget : values[t]? = some (some v) := by
    have := getCell_eq_getElem? values t
    rw [hv] at this
    rcases h : values[t]? with _ | c
    · rw [h] at this
      exact absurd this.symm (by simp)
    · rw [h] at this
      simp only [Option.getD_some] at this
      rw [← this]
  constructor
  · unfold threshold_signal
    rw [getD_map, hget]
    simp [fgt]
  · unfold threshold_signal
    rw [getD_map, hget]
    simp [flt]

/-- Witness for claim C3 at concrete input: values = [5], threshold = 3,
t = 0 (5 > 3 holds, 5 < 3 does not). -/
theorem claim_C3_threshold_level_semantics_witness :
    (((threshold_signal [some 5] 3 .ABOVE).getD 0 false = true) ↔
        (5 : ℚ) > 3) ∧
    (((threshold_signal [some 5] 3 .BELOW).getD 0 false = true) ↔
        (5 : ℚ) < 3) :=
  claim_C3_threshold_level_semantics [some 5] 3 0 5 rfl

/-- Parameter record of an indicator: `EMAConfig` / `SMAConfig` / `RSIConfig`
/ `MACDConfig` from config.py, as a closed variant. -/
inductive IndicatorParams where
  | ema (window : Int)
  | sma (window : Int)
  | rsi (window : Int)
  | macd (fast slow signal : Int)
deriving DecidableEq, Repr

/-- `config.IndicatorDefinition` raw fields. -/
structure IndicatorDefinition where
  name : String
  type : IndicatorType
  params : IndicatorParams
deriving DecidableEq, Repr

/-- `config.CrossoverRule` raw fields. -/
structure CrossoverRule where
  name : String
  fast_indicator : String
  slow_indicator : String
  direction : CrossoverDirection
  signal_type : SignalType
deriving DecidableEq, Repr

/-- `config.ThresholdRule` raw fields. -/
structure ThresholdRule where
  name : String
  indicator : String
  threshold : ℚ
  condition : ThresholdCondition
  signal_type : SignalType
deriving DecidableEq, Repr

/-- `config.StrategyDefinition` raw fields (the pydantic validation is a
separate function, `validStrategyDefinition`, below). -/
structure StrategyDefinition where
  name : String
  description : Option String
  indicators : List IndicatorDefinition
  crossover_rules : List CrossoverRule
  threshold_rules : List ThresholdRule
deriving DecidableEq, Repr

/-- Python dict assignment `m[k] = v`: overwrite in place when the key is
already present, otherwise append at the end (insertion order preserved). -/
def dictInsert {α : Type} (m : List (String × α)) (k : String) (v : α) :
    List (String × α) :=
  if m.any (fun p => p.1 == k) then
    m.map (fun p => if p.1 == k then (k, v) else p)
  else m ++ [(k, v)]

/-- Output of one crossover rule inside `StrategyEngine.generate_signals`
(strategy.py lines 56-65); the trailing `.fillna(False)` is the identity on
the already-boolean comparison result. -/
def crossoverOutput (ind : String → Series) (r : CrossoverRule) : List Bool :=
  crossover_signal (ind r.fast_indicator) (ind r.slow_indicator) r.direction

/-- Output of one threshold rule inside `StrategyEngine.generate_signals`
(strategy.py lines 68-76). -/
def thresholdOutput (ind : String → Series) (r : ThresholdRule) : List Bool :=
  threshold_signal (ind r.indicator) r.threshold r.condition

/-- `StrategyEngine.generate_signals` (strategy.py lines 51-78): one boolean
series per rule, keyed by rule name in a dict, crossover rules first. -/
def generate_signals (d : StrategyDefinition) (ind : String → Series) :
    List (String × List Bool) :=
  let afterCross := d.crossover_rules.foldl
    (fun m r => dictInsert m r.name (crossoverOutput ind r)) []
  d.threshold_rules.foldl
    (fun m r => dictInsert m r.name (thresholdOutput ind r)) afterCross

/-- Dict lookup `signals[name]`; in the map computed by `generate_signals`
every rule name is present, so the `[]` default never fires there. -/
def sigLookup (m : List (String × List Bool)) (k : String) : List Bool :=
  match m.find? (fun p => p.1 == k) with
  | some p => p.2
  | none => []

/-- Names of rules with signal_type ENTRY, in `get_entry_signals` order
(crossover rules before threshold rules, as in strategy.py lines 82-85). -/
def entryRuleNames (d : StrategyDefinition) : List String :=
  (d.crossover_rules.filter (fun r => r.signal_type == .ENTRY)).map
      (fun r => r.name) ++
  (d.threshold_rules.filter (fun r => r.signal_type == .ENTRY)).map
      (fun r => r.name)

/-- Names of rules with signal_type EXIT (strategy.py lines 99-102). -/
def exitRuleNames (d : StrategyDefinition) : List String :=
  (d.crossover_rules.filter (fun r => r.signal_type == .EXIT)).map
      (fun r => r.name) ++
  (d.threshold_rules.filter (fun r => r.signal_type == .EXIT)).map
      (fun r => r.name)

/-- `pd.Series(False, index=list(signals.values())[0].index)`; the `none`
result models the IndexError Python raises when the signals dict is empty. -/
def allFalseLike (m : List (String × List Bool)) : Option (List Bool) :=
  match m with
  | [] => none
  | p :: _ => some (p.2.map (fun _ => false))

/-- `StrategyEngine.get_entry_signals` (strategy.py lines 80-95): AND-fold of
the per-rule entry series; all-false series when no entry rules exist. -/
def get_entry_signals (d : StrategyDefinition)
    (m : List (String × List Bool)) : Option (List Bool) :=
  match entryRuleNames d with
  | [] => allFalseLike m
  | n :: rest =>
      some (rest.foldl (fun acc k => List.zipWith (fun a b => a && b) acc
        (sigLookup m k)) (sigLookup m n))

/-- `StrategyEngine.get_exit_signals` (strategy.py lines 97-111): OR-fold of
the per-rule exit series; all-false series when no exit rules exist. -/
def get_exit_signals (d : StrategyDefinition)
    (m : List (String × List Bool)) : Option (List Bool) :=
  match exitRuleNames d with
  | [] => allFalseLike m
  | n :: rest =>
      some (rest.foldl (fun acc k => List.zipWith (fun a b => a || b) acc
        (sigLookup m k)) (sigLookup m n))

lemma mem_dictInsert {α : Type} {m : List (String × α)} {k : String} {v : α}
    {p : String × α} (hp : p ∈ dictInsert m k v) : p ∈ m ∨ p.2 = v := by
  unfold dictInsert at hp
  split at hp
  · rcases List.mem_map.mp hp with ⟨q, hq, hqe⟩
    by_cases hqk : (q.1 == k) = true
    · rw [if_pos hqk] at hqe
      right
      rw [← hqe]
    · rw [if_neg hqk] at hqe
      left
      rw [← hqe]
      exact hq
  · rcases List.mem_append.mp hp with h | h
    · exact Or.inl h
    · right
      rcases List.mem_singleton.mp h with rfl
      rfl

lemma foldl_dictInsert_mem {α β : Type} (key : β → String)
    (val : β → α) :
    ∀ (rs : List β) (init : List (String × α)) (p : String × α),
      p ∈ rs.foldl (fun m r => dictInsert m (key r) (val r)) init →
      p ∈ init ∨ ∃ r ∈ rs, p.2 = val r := by
  intro rs
  induction rs with
  | nil => intro init p hp; exact Or.inl hp
  | cons r rest ih =>
      intro init p hp
      rcases ih (dictInsert init (key r) (val r)) p hp with h | ⟨r1, hr1, he⟩
      · rcases mem_dictInsert h with h2 | h2
        · exact Or.inl h2
        · exact Or.inr ⟨r, List.mem_cons_self r rest, h2⟩
      · exact Or.inr ⟨r1, List.mem_cons_of_mem r hr1, he⟩

lemma dictInsert_ne_nil {α : Type} (m : List (String × α)) (k : String)
    (v : α) : dictInsert m k v ≠ [] := by
  unfold dictInsert
  split
  · intro h
    rcases m with _ | ⟨q, m1⟩
    · simp at *
    · exact List.noConfusion h
  · intro h
    rcases List.append_eq_nil.mp h with ⟨_, h2⟩
    exact List.noConfusion h2

lemma foldl_dictInsert_ne_nil {α β : Type} (key : β → String)
    (val : β → α) :
    ∀ (rs : List β) (init : List (String × α)),
      (init ≠ [] ∨ rs ≠ []) →
      rs.foldl (fun m r => dictInsert m (key r) (val r)) init ≠ [] := by
  intro rs
  induction rs with
  | nil =>
      intro init h
      rcases h with h | h
      · exact h
      · exact absurd rfl h
  | cons r rest ih =>
      intro init _
      exact ih (dictInsert init (key r) (val r))
        (Or.inl (dictInsert_ne_nil init (key r) (val r)))

/-- Key presence in the dict model (Python `k in m`). -/
def keyMem {α : Type} (m : List (String × α)) (k : String) : Bool :=
  m.any (fun p => p.1 == k)

lemma keyMem_dictInsert_self {α : Type} (m : List (String × α)) (k : String)
    (v : α) : keyMem (dictInsert m k v) k = true := by
  unfold keyMem dictInsert
  split
  · rename_i hany
    rcases List.any_eq_true.mp hany with ⟨q, hq, hqk⟩
    refine List.any_eq_true.mpr ⟨(k, v), ?_, by simp⟩
    refine List.mem_map.mpr ⟨q, hq, ?_⟩
    rw [if_pos hqk]
  · refine List.any_eq_true.mpr ⟨(k, v), ?_, by simp⟩
    exact List.mem_append.mpr (Or.inr (List.mem_singleton.mpr rfl))

lemma keyMem_dictInsert_mono {α : Type} {m : List (String × α)} {k1 : String}
    (k : String) (v : α) (h : keyMem m k1 = true) :
    keyMem (dictInsert m k v) k1 = true := by
  unfold keyMem dictInsert
  rcases List.any_eq_true.mp h with ⟨q, hq, hqk⟩
  split
  · by_cases hqk2 : (q.1 == k) = true
    · refine List.any_eq_true.mpr ⟨(k, v), List.mem_map.mpr ⟨q, hq, by
        rw [if_pos hqk2]⟩, ?_⟩
      have h1 : q.1 = k := by simpa using hqk2
      have h2 : q.1 = k1 := by simpa using hqk
      simpa using (h1 ▸ h2 : k = k1)
    · exact List.any_eq_true.mpr ⟨q, List.mem_map.mpr ⟨q, hq, by
        rw [if_neg hqk2]⟩, hqk⟩
  · exact List.any_eq_true.mpr ⟨q, List.mem_append.mpr (Or.inl hq), hqk⟩

lemma foldl_dictInsert_keyMem_mono {α β : Type} (key : β → String)
    (val : β → α) :
    ∀ (rs : List β) (init : List (String × α)) (k : String),
      keyMem init k = true →
      keyMem (rs.foldl (fun m r => dictInsert m (key r) (val r)) init) k
        = true := by
  intro rs
  induction rs with
  | nil => intro init k h; exact h
  | cons r rest ih =>
      intro init k h
      exact ih (dictInsert init (key r) (val r)) k
        (keyMem_dictInsert_mono (key r) (val r) h)

lemma foldl_dictInsert_keyMem_of_mem {α β : Type} (key : β → String)
    (val : β → α) :
    ∀ (rs : List β) (init : List (String × α)) (r : β), r ∈ rs →
      keyMem (rs.foldl (fun m r => dictInsert m (key r) (val r)) init)
        (key r) = true := by
  intro rs
  induction rs with
  | nil => intro init r h; exact absurd h (List.not_mem_nil r)
  | cons r0 rest ih =>
      intro init r h
      rcases List.mem_cons.mp h with rfl | h2
      · exact foldl_dictInsert_keyMem_mono key val rest
          (dictInsert init (key r) (val r)) (key r)
          (keyMem_dictInsert_self init (key r) (val r))
      · exact ih (dictInsert init (key r0) (val r0)) r h2

lemma sigLookup_mem {m : List (String × List Bool)} {k : String}
    (hk : keyMem m k = true) :
    ∃ p ∈ m, p.1 = k ∧ sigLookup m k = p.2 := by
  rcases hfind : m.find? (fun p => p.1 == k) with _ | p
  · rcases List.any_eq_true.mp hk with ⟨q, hq, hqk⟩
    have := List.find?_eq_none.mp hfind q hq
    exact absurd hqk this
  · refine ⟨p, List.mem_of_find?_eq_some hfind, ?_, ?_⟩
    · have := List.find?_some hfind
      simpa using this
    · unfold sigLookup
      rw [hfind]

lemma generate_signals_mem {d : StrategyDefinition} {ind : String → Series}
    {p : String × List Bool} (hp : p ∈ generate_signals d ind) :
    (∃ r ∈ d.crossover_rules, p.2 = crossoverOutput ind r) ∨
    (∃ r ∈ d.threshold_rules, p.2 = thresholdOutput ind r) := by
  unfold generate_signals at hp
  rcases foldl_dictInsert_mem (fun r : ThresholdRule => r.name)
      (fun r => thresholdOutput ind r) d.threshold_rules _ p hp with h | h
  · rcases foldl_dictInsert_mem (fun r : CrossoverRule => r.name)
        (fun r => crossoverOutput ind r) d.crossover_rules [] p h with h2 | h2
    · exact absurd h2 (List.not_mem_nil p)
    · exact Or.inl h2
  · exact Or.inr h

lemma generate_signals_len {d : StrategyDefinition} {ind : String → Series}
    {L : Nat} (hlen : ∀ n, (ind n).length = L) :
    ∀ p ∈ generate_signals d ind, p.2.length = L := by
  intro p hp
  rcases generate_signals_mem hp with ⟨r, _, he⟩ | ⟨r, _, he⟩
  · rw [he]
    unfold crossoverOutput
    rw [crossover_signal_length, hlen]
  · rw [he]
    unfold thresholdOutput
    rw [threshold_signal_length, hlen]

lemma generate_signals_keyMem_crossover {d : StrategyDefinition}
    {ind : String → Series} {r : CrossoverRule}
    (hr : r ∈ d.crossover_rules) :
    keyMem (generate_signals d ind) r.name = true := by
  unfold generate_signals
  exact foldl_dictInsert_keyMem_mono (fun r : ThresholdRule => r.name)
    (fun r => thresholdOutput ind r) d.threshold_rules _ r.name
    (foldl_dictInsert_keyMem_of_mem (fun r : CrossoverRule => r.name)
      (fun r => crossoverOutput ind r) d.crossover_rules [] r hr)

lemma generate_signals_keyMem_threshold {d : StrategyDefinition}
    {ind : String → Series} {r : ThresholdRule}
    (hr : r ∈ d.threshold_rules) :
    keyMem (generate_signals d ind) r.name = true := by
  unfold generate_signals
  exact foldl_dictInsert_keyMem_of_mem (fun r : ThresholdRule => r.name)
    (fun r => thresholdOutput ind r) d.threshold_rules _ r hr

lemma generate_signals_ne_nil {d : StrategyDefinition}
    {ind : String → Series}
    (h : d.crossover_rules ≠ [] ∨ d.threshold_rules ≠ []) :
    generate_signals d ind ≠ [] := by
  unfold generate_signals
  rcases h with h | h
  · exact foldl_dictInsert_ne_nil _ _ d.threshold_rules _
      (Or.inl (foldl_dictInsert_ne_nil _ _ d.crossover_rules [] (Or.inr h)))
  · exact foldl_dictInsert_ne_nil _ _ d.threshold_rules _ (Or.inr h)

lemma entryRuleNames_keyMem {d : StrategyDefinition} {ind : String → Series}
    {k : String} (hk : k ∈ entryRuleNames d) :
    keyMem (generate_signals d ind) k = true := by
  unfold entryRuleNames at hk
  rcases List.mem_append.mp hk with h | h
  · rcases List.mem_map.mp h with ⟨r, hr, rfl⟩
    exact generate_signals_keyMem_crossover (List.mem_of_mem_filter hr)
  · rcases List.mem_map.mp h with ⟨r, hr, rfl⟩
    exact generate_signals_keyMem_threshold (List.mem_of_mem_filter hr)

lemma exitRuleNames_keyMem {d : StrategyDefinition} {ind : String → Series}
    {k : String} (hk : k ∈ exitRuleNames d) :
    keyMem (generate_signals d ind) k = true := by
  unfold exitRuleNames at hk
  rcases List.mem_append.mp hk with h | h
  · rcases List.mem_map.mp h with ⟨r, hr, rfl⟩
    exact generate_signals_keyMem_crossover (List.mem_of_mem_filter hr)
  · rcases List.mem_map.mp h with ⟨r, hr, rfl⟩
    exact generate_signals_keyMem_threshold (List.mem_of_mem_filter hr)

lemma sigLookup_length {m : List (String × List Bool)} {k : String} {L : Nat}
    (hk : keyMem m k = true) (hlen : ∀ p ∈ m, p.2.length = L) :
    (sigLookup m k).length = L := by
  rcases sigLookup_mem hk with ⟨p, hp, _, he⟩
  rw [he]
  exact hlen p hp

lemma zipWith_getD_op (op : Bool → Bool → Bool) (a b : List Bool)
    (t L : Nat) (ha : a.length = L) (hb : b.length = L) (ht : t < L) :
    (List.zipWith op a b).getD t false = op (a.getD t false) (b.getD t false)
    := by
  have h1 : t < a.length := ha ▸ ht
  have h2 : t < b.length := hb ▸ ht
  have hz : t < (List.zipWith op a b).length := by
    rw [List.length_zipWith, ha, hb]
    simpa using ht
  rw [List.getD_eq_getElem?_getD, List.getElem?_eq_getElem hz,
    List.getD_eq_getElem?_getD, List.getElem?_eq_getElem h1,
    List.getD_eq_getElem?_getD, List.getElem?_eq_getElem h2]
  simp [List.getElem_zipWith]

lemma zipWith_op_length (op : Bool → Bool → Bool) (a b : List Bool) (L : Nat)
    (ha : a.length = L) (hb : b.length = L) :
    (List.zipWith op a b).length = L := by
  rw [List.length_zipWith, ha, hb]
  exact Nat.min_self L

lemma foldl_zipWith_op (op : Bool → Bool → Bool)
    (m : List (String × List Bool)) (L : Nat)
    (hm : ∀ p ∈ m, p.2.length = L) :
    ∀ (ks : List String) (init : List Bool), init.length = L →
      (∀ k ∈ ks, keyMem m k = true) →
      (ks.foldl (fun acc k => List.zipWith op acc (sigLookup m k))
          init).length = L ∧
      (∀ t, t < L →
        (ks.foldl (fun acc k => List.zipWith op acc (sigLookup m k))
            init).getD t false =
          ks.foldl (fun b k => op b ((sigLookup m k).getD t false))
            (init.getD t false)) := by
  intro ks
  induction ks with
  | nil =>
      intro init hinit _
      exact ⟨hinit, fun t _ => rfl⟩
  | cons k rest ih =>
      intro init hinit hks
      have hkk : keyMem m k = true := hks k (List.mem_cons_self k rest)
      have hlk : (sigLookup m k).length = L := sigLookup_length hkk hm
      have hinit2 : (List.zipWith op init (sigLookup m k)).length = L :=
        zipWith_op_length op init (sigLookup m k) L hinit hlk
      have hrest : ∀ k2 ∈ rest, keyMem m k2 = true :=
        fun k2 h2 => hks k2 (List.mem_cons_of_mem k h2)
      rcases ih (List.zipWith op init (sigLookup m k)) hinit2 hrest
        with ⟨hl, hp⟩
      refine ⟨hl, ?_⟩
      intro t ht
      rw [List.foldl_cons, hp t ht,
        zipWith_getD_op op init (sigLookup m k) t L hinit hlk ht]
      rfl

lemma foldl_op_all (f : String → Bool) :
    ∀ (l : List String) (b : Bool),
      l.foldl (fun acc k => acc && f k) b = (b && l.all f) := by
  intro l
  induction l with
  | nil => intro b; simp
  | cons k rest ih =>
      intro b
      rw [List.foldl_cons, ih, List.all_cons, Bool.and_assoc]

lemma foldl_op_any (f : String → Bool) :
    ∀ (l : List String) (b : Bool),
      l.foldl (fun acc k => acc || f k) b = (b || l.any f) := by
  intro l
  induction l with
  | nil => intro b; simp
  | cons k rest ih =>
      intro b
      rw [List.foldl_cons, ih, List.any_cons, Bool.or_assoc]

/-- Claim C4: a rule comparison with a NaN operand (current or shifted) is
false, so no rule output of `generate_signals` is ever true at a position
where the underlying indicator values are NaN; every entry in the computed
map is the boolean output of one of the strategy's rules (its entries are
`List Bool`, so the map holds no NaN at all). -/
theorem claim_C4_nan_coerced_to_false :
    (∀ (fast slow : Series) (direction : CrossoverDirection) (t : Nat),
      (getCell fast t = none ∨ getCell slow t = none ∨
       shiftCell fast t = none ∨ shiftCell slow t = none) →
      (crossover_signal fast slow direction).getD t false = false) ∧
    (∀ (values : Series) (threshold : ℚ) (condition : ThresholdCondition)
        (t : Nat), getCell values t = none →
      (threshold_signal values threshold condition).getD t false = false) ∧
    (∀ (d : StrategyDefinition) (ind : String → Series)
        (p : String × List Bool), p ∈ generate_signals d ind →
      (∃ r ∈ d.crossover_rules, p.2 = crossoverOutput ind r) ∨
      (∃ r ∈ d.threshold_rules, p.2 = thresholdOutput ind r)) := by
  refine ⟨?_, ?_, ?_⟩
  · intro fast slow direction t h
    rw [crossover_signal_getD]
    rcases Nat.lt_or_ge t fast.length with hl | hl
    · rw [if_pos hl]
      rcases h with h | h | h | h <;> cases direction <;>
        simp [h, fgt_none_left, fgt_none_right, flt_none_left,
          flt_none_right, fge_none_left, fge_none_right, fle_none_left,
          fle_none_right]
    · rw [if_neg (Nat.not_lt.mpr hl)]
  · intro values threshold condition t h
    unfold threshold_signal
    rw [getD_map]
    rcases hv : values[t]? with _ | c
    · rfl
    · have : getCell values t = c := by
        rw [getCell_eq_getElem? values t, hv]
        rfl
      rw [h] at this
      cases condition <;> rw [← this] <;> rfl
  · intro d ind p hp
    exact generate_signals_mem hp

/-- Witness for claim C4: a NaN fast value at t = 0 (crossover), a NaN value
at t = 0 (threshold), and the map entry of a one-threshold-rule strategy. -/
theorem claim_C4_nan_coerced_to_false_witness :
    ((crossover_signal [none] [some 1] .ABOVE).getD 0 false = false) ∧
    ((threshold_signal [none] 3 .BELOW).getD 0 false = false) ∧
    ((∃ r ∈ (⟨"S", none, [⟨"rsi", .RSI, .rsi 14⟩], [],
        [⟨"rule1", "rsi", 30, .BELOW, .ENTRY⟩]⟩ :
          StrategyDefinition).crossover_rules,
      ("rule1", thresholdOutput (fun _ => [some 1])
        ⟨"rule1", "rsi", 30, .BELOW, .ENTRY⟩).2 =
          crossoverOutput (fun _ => [some 1]) r) ∨
     (∃ r ∈ (⟨"S", none, [⟨"rsi", .RSI, .rsi 14⟩], [],
        [⟨"rule1", "rsi", 30, .BELOW, .ENTRY⟩]⟩ :
          StrategyDefinition).threshold_rules,
      ("rule1", thresholdOutput (fun _ => [some 1])
        ⟨"rule1", "rsi", 30, .BELOW, .ENTRY⟩).2 =
          thresholdOutput (fun _ => [some 1]) r)) :=
  ⟨claim_C4_nan_coerced_to_false.1 [none] [some 1] .ABOVE 0 (Or.inl rfl),
   claim_C4_nan_coerced_to_false.2.1 [none] 3 .BELOW 0 rfl,
   claim_C4_nan_coerced_to_false.2.2
     ⟨"S", none, [⟨"rsi", .RSI, .rsi 14⟩], [],
       [⟨"rule1", "rsi", 30, .BELOW, .ENTRY⟩]⟩
     (fun _ => [some 1]) _ (by
       unfold generate_signals dictInsert
       simp)⟩

lemma allFalseLike_spec {m : List (String × List Bool)} {L : Nat}
    (hm : ∀ p ∈ m, p.2.length = L) (hne : m ≠ []) :
    ∃ es, allFalseLike m = some es ∧ es.length = L ∧
      ∀ t, es.getD t false = false := by
  rcases m with _ | ⟨p, m1⟩
  · exact absurd rfl hne
  · refine ⟨p.2.map (fun _ => false), rfl, ?_, ?_⟩
    · rw [List.length_map]
      exact hm p (List.mem_cons_self p m1)
    · intro t
      rw [getD_map]
      cases p.2[t]? <;> rfl

/-- A well-formed strategy whose rule lists are both empty (both lists
default to empty in `config.StrategyDefinition`). -/
def stratNoRules : StrategyDefinition :=
  ⟨"No Rules", none, [⟨"ema_fast", .EMA, .ema 20⟩], [], []⟩

/-- Counterexample to claim C1: for a strategy with no rules at all, the
computed rule-output map is empty and `get_entry_signals` /
`get_exit_signals` hit `list(signals.values())[0]` on an empty dict — an
IndexError (modelled `none`) — instead of returning the all-false series
the claim asserts. -/
theorem claim_C1_counterexample :
    get_entry_signals stratNoRules
      (generate_signals stratNoRules (fun _ => [some 1, some 2])) = none ∧
    get_exit_signals stratNoRules
      (generate_signals stratNoRules (fun _ => [some 1, some 2])) = none ∧
    entryRuleNames stratNoRules = [] ∧
    exitRuleNames stratNoRules = [] :=
  ⟨rfl, rfl, rfl, rfl⟩

/-- Claim C1 as amended: provided the strategy has at least one rule (so the
computed rule-output map is non-empty and no IndexError is raised), the
combined entry series is the AND over all ENTRY-rule outputs at each
timestamp — all-false when no entry rules exist — and the combined exit
series is the OR over all EXIT-rule outputs — all-false when no exit rules
exist. -/
theorem claim_C1_amended (d : StrategyDefinition) (ind : String → Series)
    (L : Nat) (hlen : ∀ n, (ind n).length = L)
    (hrules : d.crossover_rules ≠ [] ∨ d.threshold_rules ≠ []) :
    ∃ es xs,
      get_entry_signals d (generate_signals d ind) = some es ∧
      get_exit_signals d (generate_signals d ind) = some xs ∧
      es.length = L ∧ xs.length = L ∧
      (∀ t, t < L → es.getD t false =
        (if entryRuleNames d = [] then false
         else (entryRuleNames d).all
           (fun k => (sigLookup (generate_signals d ind) k).getD t false))) ∧
      (∀ t, t < L → xs.getD t false =
        (if exitRuleNames d = [] then false
         else (exitRuleNames d).any
           (fun k => (sigLookup (generate_signals d ind) k).getD t false)))
    := by
  have hm : ∀ p ∈ generate_signals d ind, p.2.length = L :=
    generate_signals_len hlen
  have hne : generate_signals d ind ≠ [] := generate_signals_ne_nil hrules
  have hEntry : ∃ es, get_entry_signals d (generate_signals d ind) = some es
      ∧ es.length = L ∧
      (∀ t, t < L → es.getD t false =
        (if entryRuleNames d = [] then false
         else (entryRuleNames d).all
           (fun k => (sigLookup (generate_signals d ind) k).getD t false)))
      := by
    rcases hE : entryRuleNames d with _ | ⟨n, rest⟩
    · rcases allFalseLike_spec hm hne with ⟨es, he1, he2, he3⟩
      refine ⟨es, ?_, he2, ?_⟩
      · unfold get_entry_signals
        rw [hE]
        exact he1
      · intro t _
        rw [he3 t, if_pos rfl]
    · have hkn : keyMem (generate_signals d ind) n = true :=
        entryRuleNames_keyMem (hE ▸ List.mem_cons_self n rest)
      have hinit : (sigLookup (generate_signals d ind) n).length = L :=
        sigLookup_length hkn hm
      have hks : ∀ k ∈ rest, keyMem (generate_signals d ind) k = true :=
        fun k h2 => entryRuleNames_keyMem (hE ▸ List.mem_cons_of_mem n h2)
      rcases foldl_zipWith_op (fun a b => a && b) (generate_signals d ind) L
          hm rest (sigLookup (generate_signals d ind) n) hinit hks
        with ⟨hl, hp⟩
      refine ⟨_, ?_, hl, ?_⟩
      · unfold get_entry_signals
        rw [hE]
      · intro t ht
        rw [hp t ht, foldl_op_all, if_neg (List.cons_ne_nil n rest),
          List.all_cons]
  have hExit : ∃ xs, get_exit_signals d (generate_signals d ind) = some xs
      ∧ xs.length = L ∧
      (∀ t, t < L → xs.getD t false =
        (if exitRuleNames d = [] then false
         else (exitRuleNames d).any
           (fun k => (sigLookup (generate_signals d ind) k).getD t false)))
      := by
    rcases hE : exitRuleNames d with _ | ⟨n, rest⟩
    · rcases allFalseLike_spec hm hne with ⟨xs, he1, he2, he3⟩
      refine ⟨xs, ?_, he2, ?_⟩
      · unfold get_exit_signals
        rw [hE]
        exact he1
      · intro t _
        rw [he3 t, if_pos rfl]
    · have hkn : keyMem (generate_signals d ind) n = true :=
        exitRuleNames_keyMem (hE ▸ List.mem_cons_self n rest)
      have hinit : (sigLookup (generate_signals d ind) n).length = L :=
        sigLookup_length hkn hm
      have hks : ∀ k ∈ rest, keyMem (generate_signals d ind) k = true :=
        fun k h2 => exitRuleNames_keyMem (hE ▸ List.mem_cons_of_mem n h2)
      rcases foldl_zipWith_op (fun a b => a || b) (generate_signals d ind) L
          hm rest (sigLookup (generate_signals d ind) n) hinit hks
        with ⟨hl, hp⟩
      refine ⟨_, ?_, hl, ?_⟩
      · unfold get_exit_signals
        rw [hE]
      · intro t ht
        rw [hp t ht, foldl_op_any, if_neg (List.cons_ne_nil n rest),
          List.any_cons]
  rcases hEntry with ⟨es, he1, he2, he3⟩
  rcases hExit with ⟨xs, hx1, hx2, hx3⟩
  exact ⟨es, xs, he1, hx1, he2, hx2, he3, hx3⟩

/-- An RSI mean-reversion style strategy with one entry and one exit
threshold rule, used as a concrete witness input. -/
def stratRsiOnly : StrategyDefinition :=
  ⟨"RSI", none, [⟨"rsi", .RSI, .rsi 14⟩], [],
    [⟨"rsi_entry", "rsi", 30, .BELOW, .ENTRY⟩,
     ⟨"rsi_exit", "rsi", 70, .ABOVE, .EXIT⟩]⟩

/-- Witness for claim C1 (amended) at a concrete strategy with one entry and
one exit threshold rule and a one-point indicator series. -/
theorem claim_C1_amended_witness :
    ∃ es xs,
      get_entry_signals stratRsiOnly
        (generate_signals stratRsiOnly (fun _ => [some 20])) = some es ∧
      get_exit_signals stratRsiOnly
        (generate_signals stratRsiOnly (fun _ => [some 20])) = some xs ∧
      es.length = 1 ∧ xs.length = 1 ∧
      (∀ t, t < 1 → es.getD t false =
        (if entryRuleNames stratRsiOnly = [] then false
         else (entryRuleNames stratRsiOnly).all
           (fun k => (sigLookup (generate_signals stratRsiOnly
             (fun _ => [some 20])) k).getD t false))) ∧
      (∀ t, t < 1 → xs.getD t false =
        (if exitRuleNames stratRsiOnly = [] then false
         else (exitRuleNames stratRsiOnly).any
           (fun k => (sigLookup (generate_signals stratRsiOnly
             (fun _ => [some 20])) k).getD t false))) :=
  claim_C1_amended stratRsiOnly (fun _ => [some 20]) 1 (fun _ => rfl)
    (Or.inr (List.cons_ne_nil _ _))

lemma fgt_self (c : Cell) : fgt c c = false := by
  cases c <;> simp [fgt]

lemma flt_self (c : Cell) : flt c c = false := by
  cases c <;> simp [flt]

lemma crossover_signal_self (s : Series) (direction : CrossoverDirection)
    (t : Nat) : (crossover_signal s s direction).getD t false = false := by
  rw [crossover_signal_getD]
  rcases Nat.lt_or_ge t s.length with hl | hl
  · rw [if_pos hl]
    cases direction <;> simp [fgt_self, flt_self]
  · rw [if_neg (Nat.not_lt.mpr hl)]

/-- `StrategyBuilder.macd_momentum` (builders.py lines 152-186): a single
MACD indicator named "macd" and two crossover rules whose fast and slow
slots both name it. -/
def macd_momentum (fast_period slow_period signal_period : Int) :
    StrategyDefinition :=
  ⟨"MACD Momentum", some "MACD momentum strategy",
    [⟨"macd", .MACD, .macd fast_period slow_period signal_period⟩],
    [⟨"macd_entry", "macd", "macd", .ABOVE, .ENTRY⟩,
     ⟨"macd_exit", "macd", "macd", .BELOW, .EXIT⟩], []⟩

/-- `StrategyBuilder.macd_rsi_confluence` (builders.py lines 287-345): MACD
self-crossover rules plus RSI threshold rules. -/
def macd_rsi_confluence (macd_fast macd_slow macd_signal rsi_period : Int)
    (rsi_oversold rsi_overbought : ℚ) : StrategyDefinition :=
  ⟨"MACD + RSI Confluence", some "MACD + RSI confluence strategy",
    [⟨"macd", .MACD, .macd macd_fast macd_slow macd_signal⟩,
     ⟨"rsi", .RSI, .rsi rsi_period⟩],
    [⟨"macd_bullish_cross", "macd", "macd", .ABOVE, .ENTRY⟩,
     ⟨"macd_bearish_cross", "macd", "macd", .BELOW, .EXIT⟩],
    [⟨"rsi_oversold_confirm", "rsi", rsi_oversold, .BELOW, .ENTRY⟩,
     ⟨"rsi_overbought_exit", "rsi", rsi_overbought, .ABOVE, .EXIT⟩]⟩

lemma generate_signals_macd_momentum (fp sp gp : Int)
    (ind : String → Series) :
    generate_signals (macd_momentum fp sp gp) ind =
      [("macd_entry", crossover_signal (ind "macd") (ind "macd") .ABOVE),
       ("macd_exit", crossover_signal (ind "macd") (ind "macd") .BELOW)] :=
  rfl

lemma entry_macd_momentum (fp sp gp : Int) (ind : String → Series) :
    get_entry_signals (macd_momentum fp sp gp)
      (generate_signals (macd_momentum fp sp gp) ind) =
      some (crossover_signal (ind "macd") (ind "macd") .ABOVE) :=
  rfl

lemma exit_macd_momentum (fp sp gp : Int) (ind : String → Series) :
    get_exit_signals (macd_momentum fp sp gp)
      (generate_signals (macd_momentum fp sp gp) ind) =
      some (crossover_signal (ind "macd") (ind "macd") .BELOW) :=
  rfl

/-- Claim C6: a crossover of a series against itself never satisfies the
strict comparison, so it is false at every timestamp; both MACD builders
wire both crossover slots to the single "macd" indicator, hence
`macd_momentum`'s combined entry and exit series are false everywhere on
every input, and `macd_rsi_confluence`'s crossover-rule outputs are false
everywhere on every input. -/
theorem claim_C6_macd_self_crossover_never_fires :
    (∀ (s : Series) (direction : CrossoverDirection) (t : Nat),
      (crossover_signal s s direction).getD t false = false) ∧
    (∀ fp sp gp : Int,
      (macd_momentum fp sp gp).crossover_rules.all
        (fun r => r.fast_indicator == r.slow_indicator) = true) ∧
    (∀ (fp sp gp : Int) (ind : String → Series),
      ∃ es xs,
        get_entry_signals (macd_momentum fp sp gp)
          (generate_signals (macd_momentum fp sp gp) ind) = some es ∧
        get_exit_signals (macd_momentum fp sp gp)
          (generate_signals (macd_momentum fp sp gp) ind) = some xs ∧
        (∀ t, es.getD t false = false) ∧ (∀ t, xs.getD t false = false)) ∧
    (∀ (mf ms mg rp : Int) (ov ob : ℚ),
      (macd_rsi_confluence mf ms mg rp ov ob).crossover_rules.all
        (fun r => r.fast_indicator == r.slow_indicator) = true) ∧
    (∀ (mf ms mg rp : Int) (ov ob : ℚ) (ind : String → Series)
        (r : CrossoverRule),
      r ∈ (macd_rsi_confluence mf ms mg rp ov ob).crossover_rules →
      ∀ t, (crossoverOutput ind r).getD t false = false) := by
  refine ⟨crossover_signal_self, fun _ _ _ => rfl, ?_, fun _ _ _ _ _ _ => rfl,
    ?_⟩
  · intro fp sp gp ind
    exact ⟨_, _, entry_macd_momentum fp sp gp ind,
      exit_macd_momentum fp sp gp ind,
      fun t => crossover_signal_self (ind "macd") .ABOVE t,
      fun t => crossover_signal_self (ind "macd") .BELOW t⟩
  · intro mf ms mg rp ov ob ind r hr t
    rcases List.mem_cons.mp hr with rfl | hr2
    · exact crossover_signal_self (ind "macd") .ABOVE t
    · rcases List.mem_cons.mp hr2 with rfl | hr3
      · exact crossover_signal_self (ind "macd") .BELOW t
      · exact absurd hr3 (List.not_mem_nil r)

/-- Witness for claim C6 at concrete inputs: a two-point series against
itself, and the confluence builder's bullish crossover rule on a concrete
indicator map. -/
theorem claim_C6_macd_self_crossover_never_fires_witness :
    ((crossover_signal [some 1, some 2] [some 1, some 2] .ABOVE).getD 1 false
      = false) ∧
    ((crossoverOutput (fun _ => [some 1, some 2])
      ⟨"macd_bullish_cross", "macd", "macd", .ABOVE, .ENTRY⟩).getD 1 false
      = false) :=
  ⟨claim_C6_macd_self_crossover_never_fires.1 [some 1, some 2] .ABOVE 1,
   claim_C6_macd_self_crossover_never_fires.2.2.2.2 12 26 9 14 30 70
     (fun _ => [some 1, some 2]) _ (List.mem_cons_self _ _) 1⟩

/-- The pydantic identifier pattern `^[a-zA-Z][a-zA-Z0-9_]*$` used for
indicator and rule names in config.py. -/
def validName (s : String) : Bool :=
  match s.toList with
  | [] => false
  | c :: cs => c.isAlpha && cs.all (fun d => d.isAlphanum || d == '_')

/-- Field bounds and the MACD `validate_periods` model validator of the
`IndicatorParams` subclasses (config.py lines 21-47): EMA/SMA window in
2..200, RSI window in 2..100, MACD fast in 2..50, slow in 2..100, signal in
2..50 and `slow > fast`. -/
def validParams : IndicatorParams → Bool
  | .ema w => decide (2 ≤ w) && decide (w ≤ 200)
  | .sma w => decide (2 ≤ w) && decide (w ≤ 200)
  | .rsi w => decide (2 ≤ w) && decide (w ≤ 100)
  | .macd f s g =>
      decide (2 ≤ f) && decide (f ≤ 50) && decide (2 ≤ s) &&
      decide (s ≤ 100) && decide (2 ≤ g) && decide (g ≤ 50) &&
      decide (f < s)

/-- The indicator names of a strategy, in declaration order. -/
def indicatorNames (d : StrategyDefinition) : List String :=
  d.indicators.map (fun i => i.name)

/-- Python set membership `x in indicator_names`. -/
def nameDeclared (d : StrategyDefinition) (x : String) : Bool :=
  (indicatorNames d).any (fun n => n == x)

/-- Full pydantic validation of `config.StrategyDefinition` construction:
field constraints, `unique_indicator_names` and `validate_rule_references`
(config.py lines 50-108).  `false` models a raised ValidationError. -/
def validStrategyDefinition (d : StrategyDefinition) : Bool :=
  decide (1 ≤ d.name.length) && decide (d.name.length ≤ 100) &&
  (match d.description with
   | none => true
   | some s => decide (s.length ≤ 500)) &&
  decide (1 ≤ d.indicators.length) &&
  d.indicators.all (fun i => validName i.name && validParams i.params) &&
  d.crossover_rules.all (fun r => validName r.name) &&
  d.threshold_rules.all (fun r => validName r.name) &&
  ((indicatorNames d).dedup.length == (indicatorNames d).length) &&
  d.crossover_rules.all (fun r =>
    nameDeclared d r.fast_indicator && nameDeclared d r.slow_indicator) &&
  d.threshold_rules.all (fun r => nameDeclared d r.indicator)

/-- The parameter-level failure cases enumerated by claim C5. -/
def claimedParamViolation : IndicatorParams → Prop
  | .ema w => w < 2 ∨ 200 < w
  | .sma w => w < 2 ∨ 200 < w
  | .rsi w => w < 2 ∨ 100 < w
  | .macd f s _ => s ≤ f

lemma validParams_no_violation {p : IndicatorParams}
    (h : validParams p = true) : ¬ claimedParamViolation p := by
  cases p <;>
    simp only [validParams, Bool.and_eq_true, decide_eq_true_eq] at h <;>
    simp only [claimedParamViolation] <;> omega

lemma nameDeclared_true_iff (d : StrategyDefinition) (x : String) :
    nameDeclared d x = true ↔ x ∈ indicatorNames d := by
  unfold nameDeclared
  rw [List.any_eq_true]
  constructor
  · rintro ⟨n, hn, he⟩
    have : n = x := by simpa using he
    exact this ▸ hn
  · intro hx
    exact ⟨x, hx, by simp⟩

lemma valid_true_spec {d : StrategyDefinition}
    (h : validStrategyDefinition d = true) :
    (indicatorNames d).Nodup ∧ d.indicators ≠ [] ∧
    (∀ i ∈ d.indicators, validParams i.params = true) ∧
    (∀ r ∈ d.crossover_rules, r.fast_indicator ∈ indicatorNames d ∧
      r.slow_indicator ∈ indicatorNames d) ∧
    (∀ r ∈ d.threshold_rules, r.indicator ∈ indicatorNames d) := by
  unfold validStrategyDefinition at h
  simp only [Bool.and_eq_true, List.all_eq_true, decide_eq_true_eq,
    beq_iff_eq] at h
  obtain ⟨⟨⟨⟨⟨⟨⟨⟨⟨_, _⟩, _⟩, hlen⟩, hparams⟩, _⟩, _⟩, hdedup⟩, hcross⟩,
    hthresh⟩ := h
  refine ⟨?_, ?_, ?_, ?_, ?_⟩
  · have heq : (indicatorNames d).dedup = indicatorNames d :=
      (List.dedup_sublist (indicatorNames d)).eq_of_length hdedup
    rw [← heq]
    exact List.nodup_dedup (indicatorNames d)
  · intro hnil
    rw [hnil] at hlen
    simp at hlen
  · intro i hi
    exact ((hparams i hi).2)
  · intro r hr
    rcases hcross r hr with ⟨h1, h2⟩
    exact ⟨(nameDeclared_true_iff d _).mp h1, (nameDeclared_true_iff d _).mp h2⟩
  · intro r hr
    exact (nameDeclared_true_iff d _).mp (hthresh r hr)

/-- Claim C5 as amended: constructing a StrategyDefinition fails validation
in at least the enumerated cases — a duplicated indicator name, an empty
indicator set, an EMA/SMA window outside 2..200 or an RSI window outside
2..100, a MACD configuration with slow ≤ fast, or a rule referencing an
absent indicator name — and MACD {fast=26, slow=12, signal=9} fails; the
enumeration is not exhaustive (see the counterexample: a malformed
indicator name also fails). -/
theorem claim_C5_amended_validation_failure_cases :
    (∀ d : StrategyDefinition,
      (¬ (indicatorNames d).Nodup ∨
       d.indicators = [] ∨
       (∃ i ∈ d.indicators, claimedParamViolation i.params) ∨
       (∃ r ∈ d.crossover_rules, r.fast_indicator ∉ indicatorNames d ∨
         r.slow_indicator ∉ indicatorNames d) ∨
       (∃ r ∈ d.threshold_rules, r.indicator ∉ indicatorNames d)) →
      validStrategyDefinition d = false) ∧
    validParams (.macd 26 12 9) = false := by
  constructor
  · intro d h
    cases hv : validStrategyDefinition d with
    | false => rfl
    | true =>
        exfalso
        rcases valid_true_spec hv with ⟨hnodup, hnil, hparams, hcross,
          hthresh⟩
        rcases h with h | h | ⟨i, hi, hviol⟩ | ⟨r, hr, href⟩ | ⟨r, hr, href⟩
        · exact h hnodup
        · exact hnil h
        · exact validParams_no_violation (hparams i hi) hviol
        · rcases href with href | href
          · exact href (hcross r hr).1
          · exact href (hcross r hr).2
        · exact href (hthresh r hr)
  · rfl

/-- Witness for claim C5 (amended) at concrete inputs: a strategy with a
duplicated indicator name fails validation, and the
MACD {fast=26, slow=12, signal=9} example fails its parameter check. -/
theorem claim_C5_amended_validation_failure_cases_witness :
    validStrategyDefinition
      ⟨"S", none, [⟨"ema1", .EMA, .ema 12⟩, ⟨"ema1", .EMA, .ema 26⟩], [], []⟩
      = false ∧
    validParams (.macd 26 12 9) = false :=
  ⟨claim_C5_amended_validation_failure_cases.1
      ⟨"S", none, [⟨"ema1", .EMA, .ema 12⟩, ⟨"ema1", .EMA, .ema 26⟩], [], []⟩
      (Or.inl (by decide)),
   claim_C5_amended_validation_failure_cases.2⟩

/-- Counterexample to claim C5 as stated ("fails ... in exactly these
cases"): a strategy whose only flaw is an indicator name starting with a
digit — none of the five enumerated cases — still fails validation, so the
enumeration is not exhaustive. -/
theorem claim_C5_counterexample :
    validStrategyDefinition
      ⟨"S", none, [⟨"1bad", .EMA, .ema 20⟩], [], []⟩ = false ∧
    (indicatorNames ⟨"S", none, [⟨"1bad", .EMA, .ema 20⟩], [], []⟩).Nodup ∧
    (⟨"S", none, [⟨"1bad", .EMA, .ema 20⟩], [], []⟩ :
      StrategyDefinition).indicators ≠ [] ∧
    (∀ i ∈ (⟨"S", none, [⟨"1bad", .EMA, .ema 20⟩], [], []⟩ :
      StrategyDefinition).indicators, ¬ claimedParamViolation i.params) ∧
    (⟨"S", none, [⟨"1bad", .EMA, .ema 20⟩], [], []⟩ :
      StrategyDefinition).crossover_rules = [] ∧
    (⟨"S", none, [⟨"1bad", .EMA, .ema 20⟩], [], []⟩ :
      StrategyDefinition).threshold_rules = [] := by
  refine ⟨rfl, by decide, by decide, ?_, rfl, rfl⟩
  intro i hi
  rcases List.mem_singleton.mp hi with rfl
  simp [claimedParamViolation]

/-- `models.PriceDataPoint`: a timestamp (epoch-encoded) and a price
constrained by `Field(..., ge=0)`. -/
structure PriceDataPoint where
  timestamp : Int
  price : ℚ
deriving DecidableEq, Repr

/-- Field validation of one price point: `price: float = Field(..., ge=0)`
(models.py lines 192-200). -/
def validPriceDataPoint (p : PriceDataPoint) : Bool := decide (0 ≤ p.price)

/-- pydantic validation of `BacktestRequest.price_data` (models.py lines
316-320): `min_items=1` plus per-point field checks.  There is no length-2
check, no monotonicity check and no `InvalidPriceSeries` error anywhere on
the backtest path; `false` models a pydantic ValidationError. -/
def validBacktestPriceData (ps : List PriceDataPoint) : Bool :=
  decide (1 ≤ ps.length) && ps.all validPriceDataPoint

/-- Counterexample to claim C7: a one-point price series and a
two-point series with decreasing (non-monotonic) timestamps both pass
request validation and reach the indicator math, instead of failing with
`InvalidPriceSeries` as the claim states (no such error exists in the
code). -/
theorem claim_C7_counterexample :
    validBacktestPriceData [⟨0, 100⟩] = true ∧
    validBacktestPriceData [⟨5, 100⟩, ⟨3, 101⟩] = true := by
  constructor <;> rfl

/-- Claim C7 as amended: the only price-series validation on the raw-data
backtest path is pydantic's — the request is rejected exactly when the
series is empty or a price is negative — and the check is insensitive to
timestamp order (no monotonicity requirement), so 1-point and
non-monotonic series proceed to indicator math. -/
theorem claim_C7_amended_price_series_validation :
    (∀ ps : List PriceDataPoint,
      validBacktestPriceData ps = true ↔
        (1 ≤ ps.length ∧ ∀ p ∈ ps, 0 ≤ p.price)) ∧
    (∀ ps : List PriceDataPoint,
      validBacktestPriceData ps.reverse = validBacktestPriceData ps) := by
  constructor
  · intro ps
    unfold validBacktestPriceData validPriceDataPoint
    simp [List.all_eq_true]
  · intro ps
    unfold validBacktestPriceData validPriceDataPoint
    rw [List.length_reverse, List.all_reverse]

/-- `models.DynamicIndicatorDefinition` raw fields: the flexible `params`
dict (an association list of int-valued entries; `none` fields model
Python `None`) plus the convenience top-level parameter fields. -/
structure DynamicIndicatorDefinition where
  name : String
  type : IndicatorType
  params : List (String × Int)
  period : Option Int
  window : Option Int
  fast : Option Int
  slow : Option Int
  signal : Option Int
  fast_period : Option Int
  slow_period : Option Int
  signal_period : Option Int
deriving DecidableEq, Repr

/-- Python `m.get(k)` on the params dict. -/
def pyGet (m : List (String × Int)) (k : String) : Option Int :=
  (m.find? (fun p => p.1 == k)).map (fun p => p.2)

/-- Python `m.get(k, dflt)`. -/
def pyGetD (m : List (String × Int)) (k : String) (dflt : Int) : Int :=
  (pyGet m k).getD dflt

/-- Python `a or b` where `a` is an optional int (`None` and `0` are both
falsy) and `b` an already-computed int. -/
def pyOrInt (a : Option Int) (b : Int) : Int :=
  match a with
  | some v => if v = 0 then b else v
  | none => b

/-- One step of `model_post_init`'s merge (models.py lines 68-71): a set
convenience field is copied into `params` only when its key is absent
("params takes precedence"). -/
def mergeField (m : List (String × Int)) (k : String) (v : Option Int) :
    List (String × Int) :=
  match v with
  | none => m
  | some x => if m.any (fun p => p.1 == k) then m else m ++ [(k, x)]

/-- The convenience fields in the order `model_post_init` collects them
(models.py lines 50-66). -/
def convenienceFields (d : DynamicIndicatorDefinition) :
    List (String × Option Int) :=
  [("period", d.period), ("window", d.window), ("fast", d.fast),
   ("slow", d.slow), ("signal", d.signal), ("fast_period", d.fast_period),
   ("slow_period", d.slow_period), ("signal_period", d.signal_period)]

/-- `DynamicIndicatorDefinition.model_post_init` (models.py lines 44-71):
the params dict after merging in the convenience fields. -/
def mergedParams (d : DynamicIndicatorDefinition) : List (String × Int) :=
  (convenienceFields d).foldl (fun m p => mergeField m p.1 p.2) d.params

/-- `DynamicIndicatorDefinition.to_typed_definition` (models.py lines
73-101): the parameter values placed into the typed config records,
including Python's truthy `or` chains (a stored 0 is falsy and falls
through to the fallback key or the default). -/
def to_typed_params (d : DynamicIndicatorDefinition) : IndicatorParams :=
  match d.type with
  | .EMA => .ema (pyOrInt (pyGet (mergedParams d) "window")
      (pyGetD (mergedParams d) "period" 20))
  | .SMA => .sma (pyOrInt (pyGet (mergedParams d) "window")
      (pyGetD (mergedParams d) "period" 20))
  | .RSI => .rsi (pyOrInt (pyGet (mergedParams d) "window")
      (pyGetD (mergedParams d) "period" 14))
  | .MACD => .macd
      (pyOrInt (pyGet (mergedParams d) "fast")
        (pyGetD (mergedParams d) "fast_period" 12))
      (pyOrInt (pyGet (mergedParams d) "slow")
        (pyGetD (mergedParams d) "slow_period" 26))
      (pyOrInt (pyGet (mergedParams d) "signal")
        (pyGetD (mergedParams d) "signal_period" 9))

lemma mergeField_none (m : List (String × Int)) (k : String) :
    mergeField m k none = m := rfl

lemma mergeField_some (m : List (String × Int)) (k : String) (y : Int) :
    mergeField m k (some y) =
      if m.any (fun p => p.1 == k) then m else m ++ [(k, y)] := rfl

lemma pyGet_mergeField_of_some {m : List (String × Int)} {k : String}
    {v : Int} (hk : pyGet m k = some v) (k2 : String) (x : Option Int) :
    pyGet (mergeField m k2 x) k = some v := by
  cases x with
  | none => rw [mergeField_none]; exact hk
  | some y =>
      rw [mergeField_some]
      split
      · exact hk
      · unfold pyGet at hk ⊢
        rcases hfp : m.find? (fun p => p.1 == k) with _ | p
        · rw [hfp] at hk
          exact Option.noConfusion hk
        · rw [List.find?_append, hfp]
          rw [hfp] at hk
          exact hk

lemma foldl_mergeField_of_some {k : String} {v : Int} :
    ∀ (l : List (String × Option Int)) (m : List (String × Int)),
      pyGet m k = some v →
      pyGet (l.foldl (fun m p => mergeField m p.1 p.2) m) k = some v := by
  intro l
  induction l with
  | nil => intro m hm; exact hm
  | cons p rest ih =>
      intro m hm
      exact ih (mergeField m p.1 p.2) (pyGet_mergeField_of_some hm p.1 p.2)

lemma pyGet_mergeField_ne (m : List (String × Int)) (k2 : String)
    (x : Option Int) (k : String) (h : k2 ≠ k) :
    pyGet (mergeField m k2 x) k = pyGet m k := by
  cases x with
  | none => rw [mergeField_none]
  | some y =>
      rw [mergeField_some]
      split
      · rfl
      · unfold pyGet
        rw [List.find?_append]
        have hk2 : (k2 == k) = false := by
          simpa using h
        have hsingle : List.find? (fun p => p.1 == k) [(k2, y)] = none := by
          simp [List.find?_cons, hk2]
        rw [hsingle]
        cases m.find? (fun p => p.1 == k) <;> rfl

lemma pyGet_mergeField_self_absent (m : List (String × Int)) (k : String)
    (y : Int) (h : pyGet m k = none) :
    pyGet (mergeField m k (some y)) k = some y := by
  unfold pyGet at h
  have hfind : m.find? (fun p => p.1 == k) = none := by
    rcases hfp : m.find? (fun p => p.1 == k) with _ | p
    · exact hfp
    · rw [hfp] at h
      exact Option.noConfusion h
  have hany : m.any (fun p => p.1 == k) = false := by
    cases hq : m.any (fun p => p.1 == k) with
    | false => rfl
    | true =>
        rcases List.any_eq_true.mp hq with ⟨q, hqm, hqk⟩
        exact absurd hqk (List.find?_eq_none.mp hfind q hqm)
  have hcond : ¬ ((m.any fun p => p.1 == k) = true) := by
    rw [hany]
    exact Bool.false_ne_true
  rw [mergeField_some, if_neg hcond]
  unfold pyGet
  rw [List.find?_append, hfind]
  simp [List.find?_cons]

lemma pyGet_foldl_mergeField_hit (k : String) (v : Int) :
    ∀ (l1 : List (String × Option Int)) (m : List (String × Int))
      (l2 : List (String × Option Int)),
      pyGet m k = none → (∀ p ∈ l1, p.1 ≠ k) →
      pyGet ((l1 ++ (k, some v) :: l2).foldl
        (fun m p => mergeField m p.1 p.2) m) k = some v := by
  intro l1
  induction l1 with
  | nil =>
      intro m l2 hm _
      rw [List.nil_append, List.foldl_cons]
      exact foldl_mergeField_of_some l2 _
        (pyGet_mergeField_self_absent m k v hm)
  | cons p rest ih =>
      intro m l2 hm hne
      rw [List.cons_append, List.foldl_cons]
      refine ih (mergeField m p.1 p.2) l2 ?_
        (fun q hq => hne q (List.mem_cons_of_mem p hq))
      rw [pyGet_mergeField_ne m p.1 p.2 k
        (hne p (List.mem_cons_self p rest))]
      exact hm

lemma pyOrInt_some (v b : Int) :
    pyOrInt (some v) b = if v = 0 then b else v := rfl

lemma to_typed_params_ema {d : DynamicIndicatorDefinition}
    (hty : d.type = .EMA) :
    to_typed_params d = .ema (pyOrInt (pyGet (mergedParams d) "window")
      (pyGetD (mergedParams d) "period" 20)) := by
  unfold to_typed_params
  rw [hty]

lemma to_typed_params_sma {d : DynamicIndicatorDefinition}
    (hty : d.type = .SMA) :
    to_typed_params d = .sma (pyOrInt (pyGet (mergedParams d) "window")
      (pyGetD (mergedParams d) "period" 20)) := by
  unfold to_typed_params
  rw [hty]

lemma to_typed_params_rsi {d : DynamicIndicatorDefinition}
    (hty : d.type = .RSI) :
    to_typed_params d = .rsi (pyOrInt (pyGet (mergedParams d) "window")
      (pyGetD (mergedParams d) "period" 14)) := by
  unfold to_typed_params
  rw [hty]

lemma to_typed_params_macd {d : DynamicIndicatorDefinition}
    (hty : d.type = .MACD) :
    to_typed_params d = .macd
      (pyOrInt (pyGet (mergedParams d) "fast")
        (pyGetD (mergedParams d) "fast_period" 12))
      (pyOrInt (pyGet (mergedParams d) "slow")
        (pyGetD (mergedParams d) "slow_period" 26))
      (pyOrInt (pyGet (mergedParams d) "signal")
        (pyGetD (mergedParams d) "signal_period" 9)) := by
  unfold to_typed_params
  rw [hty]

lemma pyGet_mergedParams_of_some {d : DynamicIndicatorDefinition}
    {k : String} {v : Int} (h : pyGet d.params k = some v) :
    pyGet (mergedParams d) k = some v :=
  foldl_mergeField_of_some (convenienceFields d) d.params h

/-- Claim C9 as amended: parameters may be given nested under `params` or as
top-level convenience fields (a top-level field fills a key absent from
`params`), and a key present in nested `params` takes precedence over the
top-level field — provided its nested value is nonzero; a nested 0 is falsy
in Python's `or` chain and falls through to the fallback key or the default
(see the counterexample). -/
theorem claim_C9_amended_param_precedence :
    (∀ (d : DynamicIndicatorDefinition) (k : String) (v : Int),
      pyGet d.params k = some v → pyGet (mergedParams d) k = some v) ∧
    (∀ (d : DynamicIndicatorDefinition) (v : Int),
      pyGet d.params "window" = none → d.window = some v →
      pyGet (mergedParams d) "window" = some v) ∧
    (∀ (d : DynamicIndicatorDefinition) (v : Int),
      pyGet d.params "fast" = none → d.fast = some v →
      pyGet (mergedParams d) "fast" = some v) ∧
    (∀ (d : DynamicIndicatorDefinition) (v : Int), d.type = .EMA →
      pyGet d.params "window" = some v → v ≠ 0 →
      to_typed_params d = .ema v) ∧
    (∀ (d : DynamicIndicatorDefinition) (v : Int), d.type = .SMA →
      pyGet d.params "window" = some v → v ≠ 0 →
      to_typed_params d = .sma v) ∧
    (∀ (d : DynamicIndicatorDefinition) (v : Int), d.type = .RSI →
      pyGet d.params "window" = some v → v ≠ 0 →
      to_typed_params d = .rsi v) ∧
    (∀ (d : DynamicIndicatorDefinition) (f s g : Int), d.type = .MACD →
      pyGet d.params "fast" = some f → f ≠ 0 →
      pyGet d.params "slow" = some s → s ≠ 0 →
      pyGet d.params "signal" = some g → g ≠ 0 →
      to_typed_params d = .macd f s g) := by
  refine ⟨?_, ?_, ?_, ?_, ?_, ?_, ?_⟩
  · intro d k v h
    exact pyGet_mergedParams_of_some h
  · intro d v hnone hw
    have hsplit : convenienceFields d =
        [("period", d.period)] ++ ("window", some v) ::
          [("fast", d.fast), ("slow", d.slow), ("signal", d.signal),
           ("fast_period", d.fast_period), ("slow_period", d.slow_period),
           ("signal_period", d.signal_period)] := by
      rw [convenienceFields, hw]
      rfl
    rw [mergedParams, hsplit]
    refine pyGet_foldl_mergeField_hit "window" v _ d.params _ hnone ?_
    intro p hp
    rcases List.mem_singleton.mp hp with rfl
    exact (by decide : "period" ≠ "window")
  · intro d v hnone hw
    have hsplit : convenienceFields d =
        [("period", d.period), ("window", d.window)] ++ ("fast", some v) ::
          [("slow", d.slow), ("signal", d.signal),
           ("fast_period", d.fast_period), ("slow_period", d.slow_period),
           ("signal_period", d.signal_period)] := by
      rw [convenienceFields, hw]
      rfl
    rw [mergedParams, hsplit]
    refine pyGet_foldl_mergeField_hit "fast" v _ d.params _ hnone ?_
    intro p hp
    rcases List.mem_cons.mp hp with rfl | hp2
    · exact (by decide : "period" ≠ "fast")
    · rcases List.mem_singleton.mp hp2 with rfl
      exact (by decide : "window" ≠ "fast")
  · intro d v hty hv hnz
    rw [to_typed_params_ema hty, pyGet_mergedParams_of_some hv,
      pyOrInt_some, if_neg hnz]
  · intro d v hty hv hnz
    rw [to_typed_params_sma hty, pyGet_mergedParams_of_some hv,
      pyOrInt_some, if_neg hnz]
  · intro d v hty hv hnz
    rw [to_typed_params_rsi hty, pyGet_mergedParams_of_some hv,
      pyOrInt_some, if_neg hnz]
  · intro d f s g hty hf hnf hs hns hg hng
    rw [to_typed_params_macd hty, pyGet_mergedParams_of_some hf,
      pyGet_mergedParams_of_some hs, pyGet_mergedParams_of_some hg,
      pyOrInt_some, pyOrInt_some, pyOrInt_some, if_neg hnf, if_neg hns,
      if_neg hng]

/-- An EMA indicator entry with nested params `{"window": 10}` and top-level
`window = 15`. -/
def dynNestedTen : DynamicIndicatorDefinition :=
  ⟨"e", .EMA, [("window", 10)], none, some 15, none, none, none, none, none,
    none⟩

/-- An EMA indicator entry with empty nested params and top-level
`window = 15`. -/
def dynTopOnly : DynamicIndicatorDefinition :=
  ⟨"e", .EMA, [], none, some 15, none, none, none, none, none, none⟩

/-- Witness for claim C9 (amended) at concrete inputs: with nested
`{"window": 10}` and top-level `window = 15` the typed definition uses 10;
with no nested params the top-level 15 lands in the merged params. -/
theorem claim_C9_amended_param_precedence_witness :
    pyGet (mergedParams dynNestedTen) "window" = some 10 ∧
    to_typed_params dynNestedTen = .ema 10 ∧
    pyGet (mergedParams dynTopOnly) "window" = some 15 :=
  ⟨claim_C9_amended_param_precedence.1 dynNestedTen "window" 10 rfl,
   claim_C9_amended_param_precedence.2.2.2.1 dynNestedTen 10 rfl rfl
     (by decide),
   claim_C9_amended_param_precedence.2.1 dynTopOnly 15 rfl rfl⟩

/-- An EMA indicator entry with nested params `{"window": 0}` and top-level
`window = 15`. -/
def dynZeroWindow : DynamicIndicatorDefinition :=
  ⟨"e", .EMA, [("window", 0)], none, some 15, none, none, none, none, none,
    none⟩

/-- Counterexample to claim C9: with `window` present both nested
(`params = {"window": 0}`) and top-level (`window = 15`), the typed
definition uses neither — Python's truthy `or` treats the nested 0 as
falsy and falls back to the default 20 — so the nested params value is not
always the one used. -/
theorem claim_C9_counterexample :
    pyGet dynZeroWindow.params "window" = some 0 ∧
    dynZeroWindow.window = some 15 ∧
    to_typed_params dynZeroWindow = .ema 20 ∧
    (20 : Int) ≠ 0 ∧ (20 : Int) ≠ 15 := by
  refine ⟨rfl, rfl, ?_, by decide, by decide⟩
  rfl

/-- pydantic construction `RSIConfig(**kwargs)` with inherited
`extra = "forbid"` (config.py lines 14-18 and 31-33): the only declared
field is `window`; any other keyword is an "extra input" and raises a
ValidationError (modelled `.error`); otherwise `window` defaults to 14 and
must lie in 2..100. -/
def rsiConfig_construct (kwargs : List (String × Int)) :
    Except String IndicatorParams :=
  match kwargs.find? (fun p => !(p.1 == "window")) with
  | some p => .error ("extra inputs are not permitted: " ++ p.1)
  | none =>
      let w := pyGetD kwargs "window" 14
      if 2 ≤ w ∧ w ≤ 100 then .ok (.rsi w)
      else .error "window out of range"

/-- pydantic construction `EMAConfig(window=w)`. -/
def emaConfig_construct (w : Int) : Except String IndicatorParams :=
  if 2 ≤ w ∧ w ≤ 200 then .ok (.ema w) else .error "window out of range"

/-- pydantic construction `SMAConfig(window=w)`. -/
def smaConfig_construct (w : Int) : Except String IndicatorParams :=
  if 2 ≤ w ∧ w ≤ 200 then .ok (.sma w) else .error "window out of range"

/-- pydantic construction `MACDConfig(fast=f, slow=s, signal=g)`: field
bounds then the `validate_periods` model validator. -/
def macdConfig_construct (f s g : Int) : Except String IndicatorParams :=
  if 2 ≤ f ∧ f ≤ 50 ∧ 2 ≤ s ∧ s ≤ 100 ∧ 2 ≤ g ∧ g ≤ 50 then
    if s ≤ f then .error "slow period must be greater than fast period"
    else .ok (.macd f s g)
  else .error "field out of range"

/-- One indicator entry of a strategy configuration dict consumed by
`TechnicalAnalysisEngine._build_strategy_from_config` (core.py lines
175-202); absent dict keys are `none`. -/
structure IndicatorConfigDict where
  name : String
  type : IndicatorType
  period : Option Int
  window : Option Int
  fast : Option Int
  slow : Option Int
  signal : Option Int
deriving DecidableEq, Repr

/-- A raw crossover-rule dict of the configuration. -/
structure RawCrossoverRule where
  name : String
  fast_indicator : String
  slow_indicator : String
  direction : CrossoverDirection
  signal_type : String
deriving DecidableEq, Repr

/-- A raw threshold-rule dict of the configuration. -/
structure RawThresholdRule where
  name : String
  indicator : String
  threshold : ℚ
  condition : ThresholdCondition
  signal_type : String
deriving DecidableEq, Repr

/-- The strategy configuration dict consumed by
`_build_strategy_from_config`. -/
structure StrategyConfigDict where
  name : Option String
  description : Option String
  indicators : List IndicatorConfigDict
  crossover_rules : List RawCrossoverRule
  threshold_rules : List RawThresholdRule

/-- `SignalType.ENTRY if rule["signal_type"] in ["buy", "entry"] else
SignalType.EXIT` (core.py). -/
def map_signal_type_build (s : String) : SignalType :=
  if s == "buy" || s == "entry" then .ENTRY else .EXIT

/-- The per-indicator parameter construction of
`_build_strategy_from_config`: note the RSI branch passes the keyword
`period` to `RSIConfig`, which only declares `window`. -/
def build_indicator_params (ic : IndicatorConfigDict) :
    Except String IndicatorParams :=
  match ic.type with
  | .EMA => emaConfig_construct (ic.period.getD (ic.window.getD 20))
  | .SMA => smaConfig_construct (ic.period.getD (ic.window.getD 20))
  | .RSI => rsiConfig_construct [("period", ic.period.getD 14)]
  | .MACD => macdConfig_construct (ic.fast.getD 12) (ic.slow.getD 26)
      (ic.signal.getD 9)

/-- The indicator loop of `_build_strategy_from_config`; the first raised
ValidationError aborts the build. -/
def build_indicators : List IndicatorConfigDict →
    Except String (List IndicatorDefinition)
  | [] => .ok []
  | ic :: rest => do
      let p ← build_indicator_params ic
      let tail ← build_indicators rest
      pure (⟨ic.name, ic.type, p⟩ :: tail)

/-- `TechnicalAnalysisEngine._build_strategy_from_config` (core.py lines
175-232): build indicators, convert the raw rules, then construct the
validated `StrategyDefinition`. -/
def build_strategy_from_config (cfg : StrategyConfigDict) :
    Except String StrategyDefinition := do
  let inds ← build_indicators cfg.indicators
  let d : StrategyDefinition :=
    ⟨cfg.name.getD "Custom Strategy",
     some (cfg.description.getD "Generated strategy"),
     inds,
     cfg.crossover_rules.map (fun r =>
       ⟨r.name, r.fast_indicator, r.slow_indicator, r.direction,
        map_signal_type_build r.signal_type⟩),
     cfg.threshold_rules.map (fun r =>
       ⟨r.name, r.indicator, r.threshold, r.condition,
        map_signal_type_build r.signal_type⟩)⟩
  if validStrategyDefinition d then .ok d
  else .error "ValidationError"

lemma build_indicator_params_rsi (ic : IndicatorConfigDict)
    (hty : ic.type = .RSI) :
    ∃ e, build_indicator_params ic = .error e := by
  unfold build_indicator_params
  rw [hty]
  exact ⟨_, rfl⟩

lemma build_indicators_error_of_rsi :
    ∀ l : List IndicatorConfigDict, (∃ ic ∈ l, ic.type = .RSI) →
      ∃ e, build_indicators l = .error e := by
  intro l
  induction l with
  | nil =>
      rintro ⟨ic, h, _⟩
      exact absurd h (List.not_mem_nil ic)
  | cons ic rest ih =>
      rintro ⟨ic2, hmem, hty⟩
      rcases List.mem_cons.mp hmem with rfl | h2
      · rcases build_indicator_params_rsi ic2 hty with ⟨e, he⟩
        refine ⟨e, ?_⟩
        unfold build_indicators
        rw [he]
        rfl
      · cases hp : build_indicator_params ic with
        | error e =>
            refine ⟨e, ?_⟩
            unfold build_indicators
            rw [hp]
            rfl
        | ok p =>
            rcases ih ⟨ic2, h2, hty⟩ with ⟨e, he⟩
            refine ⟨e, ?_⟩
            unfold build_indicators
            rw [hp]
            show Except.bind (build_indicators rest) _ = _
            rw [he]
            rfl

/-- Claim C10: the RSI branch of `_build_strategy_from_config` constructs
`RSIConfig` with the keyword `period`, which `RSIConfig` (declaring only
`window`, with `extra = "forbid"`) rejects, so any configuration containing
an RSI indicator raises a validation error instead of producing a
StrategyDefinition; `analyze_symbol` and `backtest_symbol` build the
strategy first, so neither can complete for such a configuration. -/
theorem claim_C10_rsi_config_always_fails :
    (∀ p : Int, ∃ e, rsiConfig_construct [("period", p)] = .error e) ∧
    (∀ cfg : StrategyConfigDict, (∃ ic ∈ cfg.indicators, ic.type = .RSI) →
      ∃ e, build_strategy_from_config cfg = .error e) := by
  constructor
  · intro p
    exact ⟨_, rfl⟩
  · intro cfg h
    rcases build_indicators_error_of_rsi cfg.indicators h with ⟨e, he⟩
    refine ⟨e, ?_⟩
    unfold build_strategy_from_config
    rw [he]
    rfl

/-- Witness for claim C10 at a concrete configuration holding a single
standard RSI(14) indicator. -/
theorem claim_C10_rsi_config_always_fails_witness :
    (∃ e, rsiConfig_construct [("period", 14)] = .error e) ∧
    (∃ e, build_strategy_from_config
      ⟨some "S", none, [⟨"rsi", .RSI, some 14, none, none, none, none⟩],
        [], []⟩ = .error e) :=
  ⟨claim_C10_rsi_config_always_fails.1 14,
   claim_C10_rsi_config_always_fails.2
     ⟨some "S", none, [⟨"rsi", .RSI, some 14, none, none, none, none⟩],
       [], []⟩
     ⟨⟨"rsi", .RSI, some 14, none, none, none, none⟩,
       List.mem_singleton.mpr rfl, rfl⟩⟩

/-- Modelled from the spec: a completed (closed) trade record of the
PortfolioSimulator (spec §3 Trade/PortfolioState and §4.4).  The simulator
itself is realized in the repository by the external
`vectorbt.Portfolio.from_signals` library; only its caller
`TechnicalAnalysisService._backtest_with_price_series` is under src/. -/
structure Trade where
  entryIndex : Nat
  entryPrice : ℚ
  exitIndex : Nat
  exitPrice : ℚ
  pnl : ℚ
deriving DecidableEq, Repr

/-- Modelled from the spec: the two-state FLAT/LONG account of §4.4. -/
inductive PositionState where
  | flat
  | long (entryIndex : Nat) (entryPrice : ℚ) (shares : ℚ) (entryCash : ℚ)
deriving DecidableEq, Repr

/-- Modelled from the spec: transient per-run portfolio state. -/
structure SimState where
  cash : ℚ
  pos : PositionState
  trades : List Trade
deriving DecidableEq, Repr

/-- Modelled from the spec: one timestamp of the §4.4 state machine.
While FLAT, a true entry signal opens a full-allocation position at the
current price, deducting commission (rate × notional) from cash; the exit
signal is ignored.  While LONG, a true exit signal closes the position at
the current price, credits proceeds minus commission, and records a
completed trade whose realized P&L is the round-trip cash change; the
entry signal is ignored (no pyramiding). -/
def simStep (commission : ℚ) (st : SimState) (t : Nat) (price : ℚ)
    (entrySig exitSig : Bool) : SimState :=
  match st.pos with
  | .flat =>
      if entrySig then
        let fee := commission * st.cash
        let invested := st.cash - fee
        let shares := invested / price
        { cash := 0, pos := .long t price shares st.cash,
          trades := st.trades }
      else st
  | .long ti pi sh ec =>
      if exitSig then
        let proceeds := sh * price
        let fee := commission * proceeds
        let newCash := proceeds - fee
        { cash := newCash, pos := .flat,
          trades := st.trades ++ [⟨ti, pi, t, price, newCash - ec⟩] }
      else st

/-- Modelled from the spec: the single left-to-right pass of §4.4 over the
aligned price / entry / exit series. -/
def simulate (commission : ℚ) :
    List ℚ → List Bool → List Bool → Nat → SimState → SimState
  | price :: ps, e :: es, x :: xs, t, st =>
      simulate commission ps es xs (t + 1) (simStep commission st t price e x)
  | _, _, _, _, st => st

/-- Modelled from the spec: run the simulation from an all-cash FLAT start.
A position still open at the final timestamp stays in `pos` and is never
appended to `trades` (spec §4.4: an open trade is excluded from
win-rate/trade-count statistics). -/
def run_simulation (commission initial_cash : ℚ) (prices : List ℚ)
    (entries exits : List Bool) : SimState :=
  simulate commission prices entries exits 0 ⟨initial_cash, .flat, []⟩

/-- Counting pass over completed trades with positive realized P&L. -/
def countWins (ts : List Trade) : Nat :=
  ts.foldl (fun n tr => if 0 < tr.pnl then n + 1 else n) 0

/-- Modelled from the spec: the trade statistics of the backtest result
(§4.4 metrics and §6 Backtest result). -/
structure BacktestStats where
  win_rate : ℚ
  total_trades : Nat
deriving DecidableEq, Repr

/-- Modelled from the spec: the post-pass metric computation for win rate
and trade count. -/
def backtestStats (commission initial_cash : ℚ) (prices : List ℚ)
    (entries exits : List Bool) : BacktestStats :=
  let fin := run_simulation commission initial_cash prices entries exits
  { win_rate :=
      if fin.trades.length = 0 then 0
      else (countWins fin.trades : ℚ) / (fin.trades.length : ℚ),
    total_trades := fin.trades.length }

lemma countWins_eq_filter_length (ts : List Trade) :
    countWins ts = (ts.filter (fun tr => decide (0 < tr.pnl))).length := by
  have aux : ∀ (l : List Trade) (n : Nat),
      l.foldl (fun n tr => if 0 < tr.pnl then n + 1 else n) n =
        n + (l.filter (fun tr => decide (0 < tr.pnl))).length := by
    intro l
    induction l with
    | nil => intro n; simp
    | cons tr rest ih =>
        intro n
        rw [List.foldl_cons]
        by_cases hp : 0 < tr.pnl
        · rw [if_pos hp, ih, List.filter_cons_of_pos (by simpa using hp)]
          rw [List.length_cons]
          omega
        · rw [if_neg hp, ih, List.filter_cons_of_neg (by simpa using hp)]
  unfold countWins
  rw [aux]
  omega

/-- Claim C8 (spec-modelled): the backtest result's win rate equals the
fraction of completed (closed) trades with positive realized P&L, and
equals 0 when no trade was closed during the run; a concrete two-trade run
with one winner yields 1/2. -/
theorem claim_C8_win_rate_closed_trades :
    (∀ (commission initial_cash : ℚ) (prices : List ℚ)
        (entries exits : List Bool),
      (backtestStats commission initial_cash prices entries exits).win_rate =
        if (run_simulation commission initial_cash prices entries
            exits).trades = [] then 0
        else (((run_simulation commission initial_cash prices entries
            exits).trades.filter (fun tr => decide (0 < tr.pnl))).length : ℚ)
          / ((run_simulation commission initial_cash prices entries
            exits).trades.length : ℚ)) ∧
    countWins (run_simulation 0 1000 [10, 20, 20, 10]
      [true, false, true, false] [false, true, false, true]).trades = 1 ∧
    (run_simulation 0 1000 [10, 20, 20, 10] [true, false, true, false]
      [false, true, false, true]).trades.length = 2 := by
  refine ⟨?_, ?_, ?_⟩
  · intro commission initial_cash prices entries exits
    show (if (run_simulation commission initial_cash prices entries
          exits).trades.length = 0 then (0 : ℚ)
        else (countWins (run_simulation commission initial_cash prices
          entries exits).trades : ℚ) /
          ((run_simulation commission initial_cash prices entries
            exits).trades.length : ℚ)) = _
    rcases h : (run_simulation commission initial_cash prices entries
        exits).trades with _ | ⟨tr, rest⟩
    · simp
    · rw [if_neg (by simp), if_neg (by simp),
        countWins_eq_filter_length]
  · norm_num [run_simulation, simulate, simStep, countWins]
  · norm_num [run_simulation, simulate, simStep]

end TA
